import Mathlib

/-!
Shallow embedding of the IntervuAI interview-scheduling engine
(`src/server/services/schedulerService.ts`, second revision of the file,
the buffer-aware two-pass variant) and proofs of the spec claims.

Time-of-day values are minutes since midnight (`Nat`); times travel as
"HH:MM" strings exactly as in the source.  JavaScript string primitives
(`split`, `Number`, `String(n)`, `padStart`) are embedded as structurally
recursive Lean functions with the same semantics on the inputs the engine
exercises, so all definitions evaluate inside the kernel.
-/

namespace Scheduler

/-- Embeds JavaScript `str.split(sep)` for a one-character separator,
working on the character list ("a:b" ↦ ["a","b"], "" ↦ [""]). -/
def splitChar (sep : Char) : List Char → List (List Char)
  | [] => [[]]
  | c :: rest =>
    match splitChar sep rest with
    | [] => [[c]]
    | g :: gs => if c == sep then [] :: g :: gs else (c :: g) :: gs

/-- Decimal value of a digit list (used for `Number` on digit strings). -/
def digitsVal (l : List Char) : Nat :=
  l.foldl (fun a c => a * 10 + (c.toNat - 48)) 0

/-- Embeds JavaScript `Number(s)` restricted to the engine's use on
nonnegative-integer strings: digit strings take their decimal value,
`""` is `0`; non-numeric strings (which JS maps to `NaN`, never compared
successfully downstream) are mapped to `0`. -/
def jsNat (l : List Char) : Nat :=
  if l.all (fun c => c.isDigit) then digitsVal l else 0

/-- Embeds JavaScript `String(n)` for a natural number (fuel-based so the
kernel can evaluate it). -/
def natToStrAux : Nat → Nat → List Char
  | 0, _ => []
  | fuel + 1, n =>
    if n < 10 then [Nat.digitChar n]
    else natToStrAux fuel (n / 10) ++ [Nat.digitChar (n % 10)]

/-- Decimal numeral of a natural number as a string. -/
def natToStr (n : Nat) : String :=
  ⟨natToStrAux (n + 1) n⟩

/-- Result of `parseTime`: `{hours, minutes, totalMinutes}`. -/
structure PTime where
  hours : Nat
  minutes : Nat
  totalMinutes : Nat
  deriving Repr, DecidableEq

/-- Embeds `parseTime(timeStr)`: `timeStr.split(':').map(Number)`,
destructured into the first two components. -/
def parseTime (timeStr : String) : PTime :=
  let parts := (splitChar ':' timeStr.data).map jsNat
  let hours := parts.getD 0 0
  let minutes := parts.getD 1 0
  { hours := hours, minutes := minutes, totalMinutes := hours * 60 + minutes }

/-- Embeds `padStart(2, '0')` on a decimal numeral. -/
def padStart2 (s : String) : String :=
  if s.length ≥ 2 then s else "0" ++ s

/-- Embeds `formatTime(time)`: zero-padded `"HH:MM"`. -/
def formatTime (time : PTime) : String :=
  padStart2 (natToStr time.hours) ++ ":" ++ padStart2 (natToStr time.minutes)

/-- Embeds `maxTime`. -/
def maxTime (t1 t2 : PTime) : PTime :=
  if t1.totalMinutes ≥ t2.totalMinutes then t1 else t2

/-- Embeds `minTime`. -/
def minTime (t1 t2 : PTime) : PTime :=
  if t1.totalMinutes ≤ t2.totalMinutes then t1 else t2

/-- Embeds `timeDifference(start, end)`: wraps past midnight when the end
is numerically earlier than the start. -/
def timeDifference (start fin : PTime) : Nat :=
  if fin.totalMinutes < start.totalMinutes then
    (fin.totalMinutes + 1440) - start.totalMinutes
  else
    fin.totalMinutes - start.totalMinutes

/-- Embeds `minutesToTime(totalMinutes)`: normalise into `[0, 1440)`. -/
def minutesToTime (totalMinutes : Nat) : PTime :=
  let normalizedMinutes := totalMinutes % 1440
  { hours := normalizedMinutes / 60
    minutes := normalizedMinutes % 60
    totalMinutes := normalizedMinutes }

/-- Embeds `addMinutesToTime(timeStr, minutes)`: parse, add, reformat. -/
def addMinutesToTime (timeStr : String) (minutes : Nat) : String :=
  let time := parseTime timeStr
  let totalMinutes := time.totalMinutes + minutes
  let newTime := minutesToTime totalMinutes
  formatTime newTime

/-- Embeds the shared `TimeSlot` interface (`end` is a Lean keyword, kept
via guillemets). -/
structure TimeSlot where
  date : String
  start : String
  «end» : String
  deriving Repr, DecidableEq

/-- Embeds `LegacyAvailability` (the `Availability` type the scheduler
service consumes). -/
structure Availability where
  id : String
  user_id : String
  scheduler_id : String
  time_slots : List TimeSlot
  timezone : String
  created_at : String
  updated_at : String
  deriving Repr, DecidableEq

/-- Embeds the shared `User` interface. -/
structure User where
  id : String
  scheduler_id : String
  name : String
  email : String
  role : String
  timezone : Option String
  created_at : String
  updated_at : String
  deriving Repr, DecidableEq

/-- Embeds `businessHours: {start, end}`. -/
structure BusinessHours where
  start : String
  «end» : String
  deriving Repr, DecidableEq

/-- Embeds `SchedulingOptions`. -/
structure SchedulingOptions where
  duration : Nat
  bufferTime : Nat
  businessHours : BusinessHours
  preferredDays : List Nat
  maxSuggestions : Nat
  deriving Repr, DecidableEq

/-- Embeds `Partial<SchedulingOptions>` (the caller-supplied overrides). -/
structure PartialOptions where
  duration : Option Nat
  bufferTime : Option Nat
  businessHours : Option BusinessHours
  preferredDays : Option (List Nat)
  maxSuggestions : Option Nat
  deriving Repr, DecidableEq

/-- The service's `defaultOptions` field (second revision: 30-minute buffer). -/
def defaultOptions : SchedulingOptions :=
  { duration := 60
    bufferTime := 30
    businessHours := { start := "09:00", «end» := "17:00" }
    preferredDays := [1, 2, 3, 4, 5]
    maxSuggestions := 5 }

/-- Embeds `TimeSlotMatch` (optional interviewer fields are absent on the
matches built by `findOverlappingSlots`). -/
structure TimeSlotMatch where
  date : String
  startTime : String
  endTime : String
  duration : Nat
  score : Nat
  reasons : List String
  interviewer_id : Option String
  interviewer_name : Option String
  deriving Repr, DecidableEq

/-- Embeds `ScheduleRequest`. -/
structure ScheduleRequest where
  scheduler_id : String
  timezone : String
  interview_duration : Nat
  candidate_availability : List Availability
  interviewer_availability : List Availability
  users : Option (List User)
  deriving Repr, DecidableEq

/-- Embeds `{...defaultOptions, ...options, duration: request.interview_duration
|| defaultOptions.duration}` — the explicit `duration:` entry overrides both
spreads, and JavaScript `||` sends a zero duration to the default. -/
def mergeOptions (options : PartialOptions) (interview_duration : Nat) :
    SchedulingOptions :=
  { duration := if interview_duration = 0 then defaultOptions.duration
                else interview_duration
    bufferTime := options.bufferTime.getD defaultOptions.bufferTime
    businessHours := options.businessHours.getD defaultOptions.businessHours
    preferredDays := options.preferredDays.getD defaultOptions.preferredDays
    maxSuggestions := options.maxSuggestions.getD defaultOptions.maxSuggestions }

/-- Embeds `options.bufferTime || 15` (JavaScript `||`: a zero buffer falls
back to 15), as used in both assignment passes and the message builder. -/
def bufferOr15 (bufferTime : Nat) : Nat :=
  if bufferTime = 0 then 15 else bufferTime

/-- Embeds `findTimeSlotOverlap(slot1, slot2, requiredDuration)`.  The
`for (offset = 0; offset <= availableDuration; offset += intervalMinutes)`
loop is rendered as the list of its visited offsets `i * intervalMinutes`
for `i = 0 .. availableDuration / intervalMinutes`. -/
def findTimeSlotOverlap (slot1 slot2 : TimeSlot) (requiredDuration : Nat) :
    List TimeSlot :=
  let start1 := parseTime slot1.start
  let end1 := parseTime slot1.«end»
  let start2 := parseTime slot2.start
  let end2 := parseTime slot2.«end»
  let overlapStart := maxTime start1 start2
  let overlapEnd := minTime end1 end2
  let overlapDuration := timeDifference overlapStart overlapEnd
  if overlapDuration < requiredDuration then []
  else
    let availableDuration := overlapDuration - requiredDuration
    let intervalMinutes := min 15 (max 1 (availableDuration / 4))
    let offsets :=
      (List.range (availableDuration / intervalMinutes + 1)).map
        (fun i => i * intervalMinutes)
    let possibleSlots := offsets.filterMap (fun offset =>
      let slotStartTime := minutesToTime (overlapStart.totalMinutes + offset)
      let slotEndTime := addMinutesToTime (formatTime slotStartTime) requiredDuration
      let slotEndParsed := parseTime slotEndTime
      if slotEndParsed.totalMinutes ≤ overlapEnd.totalMinutes then
        some { date := slot1.date, start := formatTime slotStartTime,
               «end» := slotEndTime }
      else none)
    if possibleSlots.isEmpty then
      [{ date := slot1.date, start := formatTime overlapStart,
         «end» := addMinutesToTime (formatTime overlapStart) requiredDuration }]
    else possibleSlots

/-- Embeds `findOverlappingSlots` (second revision: pushes every generated
slot, not just the best one).  The by-date candidate map lookup is rendered
as a filter of the flattened candidate slots, which reproduces the map's
per-key push order. -/
def findOverlappingSlots (candidateAvailability interviewerAvailability :
    List Availability) (options : SchedulingOptions) : List TimeSlotMatch :=
  let candSlots := candidateAvailability.flatMap (fun a => a.time_slots)
  interviewerAvailability.flatMap (fun interviewerAvail =>
    interviewerAvail.time_slots.flatMap (fun interviewerSlot =>
      (candSlots.filter (fun s => s.date == interviewerSlot.date)).flatMap
        (fun candidateSlot =>
          (findTimeSlotOverlap interviewerSlot candidateSlot options.duration).map
            (fun slot =>
              { date := interviewerSlot.date
                startTime := slot.start
                endTime := slot.«end»
                duration := options.duration
                score := 100
                reasons := []
                interviewer_id := none
                interviewer_name := none }))))

/-- Embeds `hasCandidateTimeConflict(proposedSlot, usedCandidateTimeSlots,
bufferMinutes)`. -/
def hasCandidateTimeConflict (proposedSlot : TimeSlot)
    (usedCandidateTimeSlots : List TimeSlot) (bufferMinutes : Nat) : Bool :=
  let sameDaySlots := usedCandidateTimeSlots.filter
    (fun s => s.date == proposedSlot.date)
  if sameDaySlots.isEmpty then false
  else
    let proposedStart := parseTime proposedSlot.start
    let proposedEnd := parseTime proposedSlot.«end»
    sameDaySlots.any (fun existingSlot =>
      let existingStart := parseTime existingSlot.start
      let existingEnd := parseTime existingSlot.«end»
      let existingEndWithBuffer := existingEnd.totalMinutes + bufferMinutes
      decide (proposedStart.totalMinutes < existingEndWithBuffer) &&
        decide (proposedEnd.totalMinutes > existingStart.totalMinutes))

/-- Embeds the pass-2 inline `conflictsWithScheduled` check
(`allInterviews.some(...)` inside `findIndividualInterviews`). -/
def pass2Conflicts (allInterviews : List TimeSlotMatch)
    (proposedSlot : TimeSlot) (bufferMinutes : Nat) : Bool :=
  allInterviews.any (fun scheduledInterview =>
    if scheduledInterview.date != proposedSlot.date then false
    else
      let scheduledStart := parseTime scheduledInterview.startTime
      let scheduledEnd := parseTime scheduledInterview.endTime
      let proposedStart := parseTime proposedSlot.start
      let proposedEnd := parseTime proposedSlot.«end»
      let scheduledEndWithBuffer := scheduledEnd.totalMinutes + bufferMinutes
      decide (proposedStart.totalMinutes < scheduledEndWithBuffer) &&
        decide (proposedEnd.totalMinutes > scheduledStart.totalMinutes))

/-- The interviewer ids in first-encounter order — the key order of the
insertion-ordered `interviewerMap` built by `findIndividualInterviews`. -/
def dedupFirst (seen : List String) : List Availability → List String
  | [] => []
  | a :: rest =>
    if seen.contains a.user_id then dedupFirst seen rest
    else a.user_id :: dedupFirst (a.user_id :: seen) rest

/-- Embeds `Array.from(interviewerMap.keys())` for the grouping map. -/
def interviewerIdsOf (interviewerAvailability : List Availability) :
    List String :=
  dedupFirst [] interviewerAvailability

/-- The display name: `users.find(u => u.id === id)` or the synthesized
`"Interviewer " + id.substring(0, 8)`. -/
def interviewerNameFor (users : Option (List User)) (interviewerId : String) :
    String :=
  match (users.getD []).find? (fun u => u.id == interviewerId) with
  | some interviewer => interviewer.name ++ " (" ++ interviewer.email ++ ")"
  | none => "Interviewer " ++ String.mk (interviewerId.data.take 8)

/-- The per-interviewer body of pass 1: first generated slot that passes
`hasCandidateTimeConflict` is appended to both the interview list and the
used-candidate-slot list; otherwise the state is unchanged. -/
def pass1Step (candidateAvailability interviewerAvailability : List Availability)
    (options : SchedulingOptions) (users : Option (List User))
    (st : List TimeSlotMatch × List TimeSlot) (interviewerId : String) :
    List TimeSlotMatch × List TimeSlot :=
  let interviewerAvails := interviewerAvailability.filter
    (fun a => a.user_id == interviewerId)
  let overlappingSlots :=
    findOverlappingSlots candidateAvailability interviewerAvails options
  match overlappingSlots.find? (fun slot =>
      !hasCandidateTimeConflict ⟨slot.date, slot.startTime, slot.endTime⟩
        st.2 (bufferOr15 options.bufferTime)) with
  | some slot =>
      (st.1 ++ [{ slot with
                  interviewer_id := some interviewerId
                  interviewer_name := some (interviewerNameFor users interviewerId) }],
       st.2 ++ [⟨slot.date, slot.startTime, slot.endTime⟩])
  | none => st

/-- The per-interviewer body of pass 2 (rescue): first generated slot that
passes the inline `conflictsWithScheduled` check against the interviews
assigned so far. -/
def pass2Step (candidateAvailability interviewerAvailability : List Availability)
    (options : SchedulingOptions) (users : Option (List User))
    (st : List TimeSlotMatch × List TimeSlot) (interviewerId : String) :
    List TimeSlotMatch × List TimeSlot :=
  let interviewerAvails := interviewerAvailability.filter
    (fun a => a.user_id == interviewerId)
  let overlappingSlots :=
    findOverlappingSlots candidateAvailability interviewerAvails options
  match overlappingSlots.find? (fun slot =>
      !pass2Conflicts st.1 ⟨slot.date, slot.startTime, slot.endTime⟩
        (bufferOr15 options.bufferTime)) with
  | some slot =>
      (st.1 ++ [{ slot with
                  interviewer_id := some interviewerId
                  interviewer_name := some (interviewerNameFor users interviewerId) }],
       st.2 ++ [⟨slot.date, slot.startTime, slot.endTime⟩])
  | none => st

/-- Embeds `findIndividualInterviews` (second revision): pass 1 over the
interviewer ids in encounter order, then the pass-2 rescue sweep over the
ids left unscheduled, appending to the same interview list. -/
def findIndividualInterviews (candidateAvailability interviewerAvailability :
    List Availability) (options : SchedulingOptions)
    (users : Option (List User)) : List TimeSlotMatch :=
  let interviewerIds := interviewerIdsOf interviewerAvailability
  let st1 := interviewerIds.foldl
    (pass1Step candidateAvailability interviewerAvailability options users)
    ([], [])
  let scheduledInterviewerIds := st1.1.map (fun i => i.interviewer_id)
  let unscheduledInterviewerIds := interviewerIds.filter
    (fun id => !scheduledInterviewerIds.contains (some id))
  let st2 := unscheduledInterviewerIds.foldl
    (pass2Step candidateAvailability interviewerAvailability options users)
    st1
  st2.1

/-! ### Validator -/

/-- Embeds the regex `^\d{4}-\d{2}-\d{2}$`. -/
def isValidDateFormat (s : String) : Bool :=
  match s.data with
  | [y1, y2, y3, y4, '-', m1, m2, '-', d1, d2] =>
    y1.isDigit && y2.isDigit && y3.isDigit && y4.isDigit &&
      m1.isDigit && m2.isDigit && d1.isDigit && d2.isDigit
  | _ => false

/-- Embeds `isValidTimeFormat`: the regex `^([01]?[0-9]|2[0-3]):[0-5][0-9]$`. -/
def isValidTimeFormat (timeStr : String) : Bool :=
  match timeStr.data with
  | [h, ':', m1, m2] =>
    h.isDigit && ('0' ≤ m1 && m1 ≤ '5') && m2.isDigit
  | [h1, h2, ':', m1, m2] =>
    ((h1 == '0' || h1 == '1') && h2.isDigit ||
      h1 == '2' && ('0' ≤ h2 && h2 ≤ '3')) &&
      ('0' ≤ m1 && m1 ≤ '5') && m2.isDigit
  | _ => false

/-- The `Invalid date format for availability ${index} slot ${slotIndex}:
${slot.date}` message. -/
def dateFormatMsg (index slotIndex : Nat) (date : String) : String :=
  "Invalid date format for availability " ++ natToStr index ++ " slot " ++
    natToStr slotIndex ++ ": " ++ date

/-- The `Invalid time format ...` message. -/
def timeFormatMsg (index slotIndex : Nat) (start fin : String) : String :=
  "Invalid time format for availability " ++ natToStr index ++ " slot " ++
    natToStr slotIndex ++ ": " ++ start ++ "-" ++ fin

/-- The `Invalid time range ...` message. -/
def timeRangeMsg (index slotIndex : Nat) : String :=
  "Invalid time range for availability " ++ natToStr index ++ " slot " ++
    natToStr slotIndex ++ ": start time must be before end time"

/-- The errors one slot contributes inside `validateAvailability`. -/
def slotErrors (index slotIndex : Nat) (slot : TimeSlot) : List String :=
  (if !isValidDateFormat slot.date then
    [dateFormatMsg index slotIndex slot.date] else []) ++
  (if !(isValidTimeFormat slot.start) || !(isValidTimeFormat slot.«end») then
    [timeFormatMsg index slotIndex slot.start slot.«end»] else []) ++
  (if (parseTime slot.start).hours ≥ (parseTime slot.«end»).hours then
    [timeRangeMsg index slotIndex] else [])

/-- The errors one availability record contributes (`return` skips the slot
loop when there are no slots). -/
def availErrors (index : Nat) (avail : Availability) : List String :=
  if avail.time_slots.isEmpty then
    ["No time slots provided for availability at index " ++ natToStr index]
  else
    avail.time_slots.enum.flatMap (fun p => slotErrors index p.1 p.2)

/-- Result of `validateAvailability`. -/
structure ValidationResult where
  valid : Bool
  errors : List String
  deriving Repr, DecidableEq

/-- Embeds `validateAvailability(availability)`. -/
def validateAvailability (availability : List Availability) :
    ValidationResult :=
  if availability.isEmpty then
    { valid := false, errors := ["No availability provided"] }
  else
    let errors := availability.enum.flatMap (fun p => availErrors p.1 p.2)
    { valid := errors.isEmpty, errors := errors }

/-! ### Response builder -/

/-- One entry of `all_available_slots`. -/
structure AllSlotEntry where
  date : String
  start_time : String
  end_time : String
  score : Nat
  reasons : List String
  scheduled_time : String
  interviewer_id : Option String
  interviewer_name : Option String
  deriving Repr, DecidableEq

/-- One entry of `individual_interviews`. -/
structure IndividualInterview where
  interviewer_id : String
  interviewer_name : String
  date : String
  start_time : String
  end_time : String
  score : Nat
  reasons : List String
  scheduled_time : String
  deriving Repr, DecidableEq

/-- One `{start, end, duration_minutes}` line of the summary. -/
structure SlotSummary where
  start : String
  «end» : String
  duration_minutes : Nat
  deriving Repr, DecidableEq

/-- One `{date, slots}` bucket of the summary. -/
structure DateSlots where
  date : String
  slots : List SlotSummary
  deriving Repr, DecidableEq

/-- The candidate half of `availability_summary`. -/
structure CandidateSummary where
  total_days : Nat
  total_slots : Nat
  availability_by_date : List DateSlots
  deriving Repr, DecidableEq

/-- The interviewer half of `availability_summary`. -/
structure InterviewersSummary where
  total_interviewers : Nat
  total_days : Nat
  total_slots : Nat
  availability_by_date : List DateSlots
  deriving Repr, DecidableEq

/-- Embeds `availability_summary`. -/
structure AvailabilitySummary where
  candidate : CandidateSummary
  interviewers : InterviewersSummary
  overlapping_days : List String
  deriving Repr, DecidableEq

/-- Embeds `ScheduleResponse`; optional fields that a given return path
leaves `undefined` are `none`. -/
structure ScheduleResponse where
  success : Bool
  scheduled_time : Option String
  message : String
  suggested_times : Option (List String)
  all_available_slots : Option (List AllSlotEntry)
  availability_summary : Option AvailabilitySummary
  individual_interviews : Option (List IndividualInterview)
  deriving Repr, DecidableEq

/-- String dedup keeping first occurrences — the key order of the by-date
maps and of `Set` iteration. -/
def dedupStr (seen : List String) : List String → List String
  | [] => []
  | d :: rest =>
    if seen.contains d then dedupStr seen rest
    else d :: dedupStr (d :: seen) rest

/-- All slot dates of a list of availability records, in encounter order. -/
def slotDates (avails : List Availability) : List String :=
  (avails.flatMap (fun a => a.time_slots)).map (fun s => s.date)

/-- The distinct slot dates in first-encounter order (by-date map keys). -/
def datesOf (avails : List Availability) : List String :=
  dedupStr [] (slotDates avails)

/-- The `availability_by_date` buckets for one side of the summary. -/
def availabilityByDate (avails : List Availability) : List DateSlots :=
  (datesOf avails).map (fun date =>
    { date := date
      slots := ((avails.flatMap (fun a => a.time_slots)).filter
          (fun s => s.date == date)).map (fun slot =>
        { start := slot.start
          «end» := slot.«end»
          duration_minutes :=
            timeDifference (parseTime slot.start) (parseTime slot.«end») }) })

/-- Embeds `findOverlappingDays`. -/
def findOverlappingDays (candidateAvailability interviewerAvailability :
    List Availability) : List String :=
  (datesOf candidateAvailability).filter
    (fun date => (slotDates interviewerAvailability).contains date)

/-- Embeds `generateAvailabilitySummary(request)`. -/
def generateAvailabilitySummary (request : ScheduleRequest) :
    AvailabilitySummary :=
  { candidate :=
      { total_days := (datesOf request.candidate_availability).length
        total_slots := request.candidate_availability.foldl
          (fun sum a => sum + a.time_slots.length) 0
        availability_by_date :=
          availabilityByDate request.candidate_availability }
    interviewers :=
      { total_interviewers := request.interviewer_availability.length
        total_days := (datesOf request.interviewer_availability).length
        total_slots := request.interviewer_availability.foldl
          (fun sum a => sum + a.time_slots.length) 0
        availability_by_date :=
          availabilityByDate request.interviewer_availability }
    overlapping_days :=
      findOverlappingDays request.candidate_availability
        request.interviewer_availability }

/-- Embeds `createScheduledTime(slot, timezone)`.  The external
`zonedTimeToUtc` + `toISOString` pipeline is the caller-supplied `conv`
(which may throw, i.e. return `Except.error`); the `!slot.date` fallback
substitutes `today`. -/
def createScheduledTime (conv : String → String → Except String String)
    (today : String) (slot : TimeSlotMatch) (timezone : String) :
    Except String String :=
  let date := if slot.date == "" then today else slot.date
  let timeWithSeconds :=
    if slot.startTime.data.contains ':' &&
        (splitChar ':' slot.startTime.data).length == 2 then
      slot.startTime ++ ":00"
    else slot.startTime
  conv (date ++ "T" ++ timeWithSeconds) timezone

/-- Embeds `formatScheduleMessage` (`format(parseISO(date), ...)` is the
external `fmtDate`). -/
def formatScheduleMessage (fmtDate : String → String) (slot : TimeSlotMatch)
    (timezone : String) : String :=
  let date := fmtDate slot.date
  let time := slot.startTime ++ " - " ++ slot.endTime
  let reasons :=
    if slot.reasons.length > 0 then
      " (" ++ String.intercalate ", " slot.reasons ++ ")"
    else ""
  "Interview scheduled for " ++ date ++ " at " ++ time ++ " " ++ timezone ++
    reasons

/-- Embeds `formatMultipleInterviewsMessage` (second revision, with the
buffer-aware plural message). -/
def formatMultipleInterviewsMessage (fmtDate : String → String)
    (interviews : List TimeSlotMatch) (timezone : String) (bufferTime : Nat) :
    String :=
  match interviews with
  | [] => "No interviews scheduled"
  | [interview] => formatScheduleMessage fmtDate interview timezone
  | firstInterview :: rest =>
    natToStr (firstInterview :: rest).length ++
      " individual interviews scheduled for " ++ fmtDate firstInterview.date ++
      " with " ++ natToStr bufferTime ++
      "-minute breaks between sessions. Check details below for specific times."

/-- Embeds JavaScript `value || fallback` on an optional string field. -/
def jsOrString (v : Option String) (fallback : String) : String :=
  match v with
  | some s => if s == "" then fallback else s
  | none => fallback

/-- The fixed infeasibility message. -/
def noOverlapMessage : String :=
  "No overlapping time slots found between candidate and any interviewer."

/-- The fixed catch-all failure message. -/
def genericFailureMessage : String :=
  "Failed to generate schedule. Please try again or contact support."

/-- The `success:false` response for the no-overlap outcome. -/
def noOverlapResponse : ScheduleResponse :=
  { success := false, scheduled_time := none, message := noOverlapMessage
    suggested_times := none, all_available_slots := none
    availability_summary := none, individual_interviews := none }

/-- The `success:false` response produced by the `catch` block. -/
def caughtFailureResponse : ScheduleResponse :=
  { success := false, scheduled_time := none, message := genericFailureMessage
    suggested_times := some [], all_available_slots := none
    availability_summary := none, individual_interviews := none }

/-- The `try`-block body of `findOptimalSchedule`: everything inside the
`try`, with the external timezone conversion able to fail. -/
def findOptimalScheduleBody (conv : String → String → Except String String)
    (fmtDate : String → String) (today : String) (request : ScheduleRequest)
    (options : PartialOptions) : Except String ScheduleResponse :=
  let opts := mergeOptions options request.interview_duration
  let individualInterviews := findIndividualInterviews
    request.candidate_availability request.interviewer_availability opts
    request.users
  match individualInterviews with
  | [] => Except.ok noOverlapResponse
  | primaryInterview :: _ => do
    let scheduledTime ←
      createScheduledTime conv today primaryInterview request.timezone
    let suggested ←
      ((individualInterviews.drop 1).take (opts.maxSuggestions - 1)).mapM
        (fun slot => createScheduledTime conv today slot request.timezone)
    let allSlots ← individualInterviews.mapM (fun slot => do
      let st ← createScheduledTime conv today slot request.timezone
      Except.ok
        ({ date := slot.date, start_time := slot.startTime
           end_time := slot.endTime, score := slot.score
           reasons := slot.reasons, scheduled_time := st
           interviewer_id := slot.interviewer_id
           interviewer_name := slot.interviewer_name } : AllSlotEntry))
    let indiv ← individualInterviews.mapM (fun interview => do
      let st ← createScheduledTime conv today interview request.timezone
      Except.ok
        ({ interviewer_id := jsOrString interview.interviewer_id "unknown"
           interviewer_name :=
             jsOrString interview.interviewer_name "Unknown Interviewer"
           date := interview.date, start_time := interview.startTime
           end_time := interview.endTime, score := interview.score
           reasons := interview.reasons
           scheduled_time := st } : IndividualInterview))
    Except.ok
      { success := true
        scheduled_time := some scheduledTime
        message := formatMultipleInterviewsMessage fmtDate individualInterviews
          request.timezone (bufferOr15 opts.bufferTime)
        suggested_times := some suggested
        all_available_slots := some allSlots
        availability_summary := some (generateAvailabilitySummary request)
        individual_interviews := some indiv }

/-- Embeds `findOptimalSchedule(request, options)`: run the `try` body and
let the `catch` turn any internal error into the generic failure response. -/
def findOptimalSchedule (conv : String → String → Except String String)
    (fmtDate : String → String) (today : String) (request : ScheduleRequest)
    (options : PartialOptions) : ScheduleResponse :=
  match findOptimalScheduleBody conv fmtDate today request options with
  | Except.ok response => response
  | Except.error _ => caughtFailureResponse

/-! ### Time round-trip helpers -/

/-- The function `parseTime` inverts `formatTime` on every in-range hour/minute pair
(checked exhaustively). -/
lemma parse_format_eval : ∀ h < 24, ∀ m < 60,
    parseTime (formatTime ⟨h, m, h * 60 + m⟩) = ⟨h, m, h * 60 + m⟩ := by
  decide

/-- Since `formatTime` ignores the `totalMinutes` field, the round trip holds
for any stored total. -/
lemma parse_format (h m t : Nat) (hh : h < 24) (hm : m < 60) :
    parseTime (formatTime ⟨h, m, t⟩) = ⟨h, m, h * 60 + m⟩ :=
  parse_format_eval h hh m hm

/-- Round trip through `minutesToTime` for an in-range minute count. -/
lemma parse_format_minutesToTime (n : Nat) (hn : n < 1440) :
    parseTime (formatTime (minutesToTime n)) = ⟨n / 60, n % 60, n⟩ := by
  have h1 : n % 1440 = n := Nat.mod_eq_of_lt hn
  have hmt : minutesToTime n = ⟨n / 60, n % 60, n⟩ := by
    simp [minutesToTime, h1]
  rw [hmt, parse_format _ _ _ (by omega) (by omega)]
  have : n / 60 * 60 + n % 60 = n := by omega
  rw [this]

/-! ### Conflict-predicate normal forms -/

/-- The check `hasCandidateTimeConflict` is the `any` of the date-matched overlap
test (the empty-filter early return coincides with `any` on `[]`). -/
lemma hasCandidateTimeConflict_eq_any (p : TimeSlot) (used : List TimeSlot)
    (b : Nat) :
    hasCandidateTimeConflict p used b =
      used.any (fun ex => (ex.date == p.date) &&
        (decide ((parseTime p.start).totalMinutes <
            (parseTime ex.«end»).totalMinutes + b) &&
         decide ((parseTime ex.start).totalMinutes <
            (parseTime p.«end»).totalMinutes))) := by
  have hstep : hasCandidateTimeConflict p used b =
      (used.filter (fun s => s.date == p.date)).any (fun ex =>
        decide ((parseTime p.start).totalMinutes <
            (parseTime ex.«end»).totalMinutes + b) &&
         decide ((parseTime ex.start).totalMinutes <
            (parseTime p.«end»).totalMinutes)) := by
    simp only [hasCandidateTimeConflict]
    by_cases h : (List.filter (fun s => s.date == p.date) used).isEmpty
    · rw [if_pos h, List.isEmpty_iff.mp h]
      rfl
    · rw [if_neg h]
  rw [hstep, List.any_filter]

/-- The pass-2 inline `conflictsWithScheduled` is the `any` of the same
date-matched overlap test. -/
lemma pass2Conflicts_eq_any (scheduled : List TimeSlotMatch) (p : TimeSlot)
    (b : Nat) :
    pass2Conflicts scheduled p b =
      scheduled.any (fun m => (m.date == p.date) &&
        (decide ((parseTime p.start).totalMinutes <
            (parseTime m.endTime).totalMinutes + b) &&
         decide ((parseTime m.startTime).totalMinutes <
            (parseTime p.«end»).totalMinutes))) := by
  unfold pass2Conflicts
  congr 1
  funext m
  cases hB : m.date == p.date
  · simp [bne, hB]
  · simp [bne, hB]

/-- C9: `formatTime` is the exact, zero-padded inverse of `parseTime`: on
every zero-padded "HH:MM" string (hours in [0,23], minutes in [0,59],
i.e. exactly the image of `formatTime` on those ranges) the composite
`formatTime ∘ parseTime` is the identity, and conversely
`parseTime (formatTime {hours := h, minutes := m})` yields back
`{hours := h, minutes := m, totalMinutes := 60*h+m}`. -/
theorem C9_formatTime_parseTime_inverse :
    (∀ s : String,
      (∃ h, h < 24 ∧ ∃ m, m < 60 ∧ s = formatTime ⟨h, m, h * 60 + m⟩) →
        formatTime (parseTime s) = s) ∧
    (∀ h, h < 24 → ∀ m, m < 60 → ∀ t,
        parseTime (formatTime ⟨h, m, t⟩) = ⟨h, m, h * 60 + m⟩) := by
  constructor
  · rintro s ⟨h, hh, m, hm, rfl⟩
    rw [parse_format _ _ _ hh hm]
  · intro h hh m hm t
    exact parse_format _ _ _ hh hm

/-- Witness for C9 at "09:30" and at 23:59. -/
theorem C9_formatTime_parseTime_inverse_witness :
    formatTime (parseTime "09:30") = "09:30" ∧
    parseTime (formatTime ⟨23, 59, 0⟩) = ⟨23, 59, 23 * 60 + 59⟩ :=
  ⟨C9_formatTime_parseTime_inverse.1 "09:30"
      ⟨9, by decide, 30, by decide, by decide⟩,
   C9_formatTime_parseTime_inverse.2 23 (by decide) 59 (by decide) 0⟩

/-- C4: the pass-1 conflict check (`hasCandidateTimeConflict` on the
projected `{date, start, end}` records of the scheduled interviews) and
the pass-2 inline check are the same function of the date-matched
intervals and the buffer, and both decide exactly
`s1 < e2 + buffer AND e1 > s2` against some scheduled interview of the
same date (the buffer extending only the existing interval's end). -/
theorem C4_pass1_pass2_conflict_equivalence :
    ∀ (proposedSlot : TimeSlot) (scheduled : List TimeSlotMatch)
      (buffer : Nat),
      hasCandidateTimeConflict proposedSlot
          (scheduled.map (fun m => ⟨m.date, m.startTime, m.endTime⟩)) buffer =
        pass2Conflicts scheduled proposedSlot buffer ∧
      (pass2Conflicts scheduled proposedSlot buffer = true ↔
        ∃ m ∈ scheduled, m.date = proposedSlot.date ∧
          (parseTime proposedSlot.start).totalMinutes <
            (parseTime m.endTime).totalMinutes + buffer ∧
          (parseTime m.startTime).totalMinutes <
            (parseTime proposedSlot.«end»).totalMinutes) := by
  intro p scheduled b
  constructor
  · rw [hasCandidateTimeConflict_eq_any, pass2Conflicts_eq_any]
    induction scheduled with
    | nil => rfl
    | cons a l ih =>
      rw [List.map_cons, List.any_cons, List.any_cons, ih]
  · rw [pass2Conflicts_eq_any, List.any_eq_true]
    simp [Bool.and_eq_true, decide_eq_true_iff, beq_iff_eq]

/-! ### C8: validator hour-only range check -/

/-- Distinct error messages: the range message never equals a date-format
message (they differ at character 8, 't' vs 'd'). -/
lemma timeRange_ne_dateFormat (d : String) :
    timeRangeMsg 0 0 ≠ dateFormatMsg 0 0 d := by
  intro h
  have h8 : (timeRangeMsg 0 0).data.get? 8 = (dateFormatMsg 0 0 d).data.get? 8 := by
    rw [h]
  have hL : (timeRangeMsg 0 0).data.get? 8 = some 't' := by decide
  have hR : (dateFormatMsg 0 0 d).data.get? 8 = some 'd' := rfl
  rw [hL, hR] at h8
  cases h8

/-- C8: `validateAvailability`'s time-range check compares only the hour
fields — for a slot with well-formed times the range violation is reported
iff start hour ≥ end hour — and the slot
`{date:"2024-1-1", start:"09:00", end:"10:00"}` is flagged only for its
date format, not for its time range. -/
theorem C8_validateAvailability_hour_only_range_check :
    (∀ (idv uid sid tz ca ua : String) (slot : TimeSlot),
      isValidTimeFormat slot.start = true →
      isValidTimeFormat slot.«end» = true →
      (timeRangeMsg 0 0 ∈
          (validateAvailability [⟨idv, uid, sid, [slot], tz, ca, ua⟩]).errors ↔
        (parseTime slot.start).hours ≥ (parseTime slot.«end»).hours)) ∧
    (∀ (idv uid sid tz ca ua : String),
      validateAvailability
          [⟨idv, uid, sid, [⟨"2024-1-1", "09:00", "10:00"⟩], tz, ca, ua⟩] =
        ⟨false, [dateFormatMsg 0 0 "2024-1-1"]⟩) := by
  constructor
  · intro idv uid sid tz ca ua slot hs he
    have herr : (validateAvailability [⟨idv, uid, sid, [slot], tz, ca, ua⟩]).errors
        = (slotErrors 0 0 slot ++ []) ++ [] := rfl
    rw [herr, List.append_nil, List.append_nil]
    simp only [slotErrors, hs, he, Bool.not_true, Bool.or_self, Bool.false_eq_true,
      if_false, List.nil_append]
    by_cases hdate : isValidDateFormat slot.date
    · by_cases hr : (parseTime slot.start).hours ≥ (parseTime slot.«end»).hours
      · simp [hdate, hr]
      · simp [hdate, hr]
    · by_cases hr : (parseTime slot.start).hours ≥ (parseTime slot.«end»).hours
      · simp [hdate, hr]
      · simp [hdate, hr, timeRange_ne_dateFormat slot.date]
  · intro idv uid sid tz ca ua
    rfl

/-- Witness for C8: the concrete slot of the claim, with both conjuncts
instantiated. -/
theorem C8_validateAvailability_hour_only_range_check_witness :
    (timeRangeMsg 0 0 ∈
        (validateAvailability
          [⟨"a1", "u1", "s1", [⟨"2024-1-1", "09:00", "10:00"⟩], "UTC", "c",
            "u"⟩]).errors ↔
      (parseTime "09:00").hours ≥ (parseTime "10:00").hours) ∧
    validateAvailability
        [⟨"a1", "u1", "s1", [⟨"2024-1-1", "09:00", "10:00"⟩], "UTC", "c", "u"⟩] =
      ⟨false, [dateFormatMsg 0 0 "2024-1-1"]⟩ :=
  ⟨C8_validateAvailability_hour_only_range_check.1 "a1" "u1" "s1" "UTC" "c" "u"
      ⟨"2024-1-1", "09:00", "10:00"⟩ (by decide) (by decide),
   C8_validateAvailability_hour_only_range_check.2 "a1" "u1" "s1" "UTC" "c" "u"⟩

/-! ### C2: the overlap finder -/

/-- A zero-padded in-range "HH:MM" string: the image of `formatTime`. -/
def isCanonicalHHMM (s : String) : Prop :=
  ∃ h, h < 24 ∧ ∃ m, m < 60 ∧ s = formatTime ⟨h, m, h * 60 + m⟩

/-- The `overlapStart` of `findTimeSlotOverlap`, in minutes. -/
def overlapLo (slot1 slot2 : TimeSlot) : Nat :=
  max (parseTime slot1.start).totalMinutes (parseTime slot2.start).totalMinutes

/-- The `overlapEnd` of `findTimeSlotOverlap`, in minutes. -/
def overlapHi (slot1 slot2 : TimeSlot) : Nat :=
  min (parseTime slot1.«end»).totalMinutes (parseTime slot2.«end»).totalMinutes

/-- The `intervalMinutes` step of the offset loop. -/
def stepOf (availableDuration : Nat) : Nat :=
  min 15 (max 1 (availableDuration / 4))

lemma minutesToTime_of_lt (n : Nat) (hn : n < 1440) :
    minutesToTime n = ⟨n / 60, n % 60, n⟩ := by
  simp [minutesToTime, Nat.mod_eq_of_lt hn]

lemma addMinutes_formatTime (n d : Nat) (hn : n < 1440) :
    addMinutesToTime (formatTime (minutesToTime n)) d =
      formatTime (minutesToTime (n + d)) := by
  unfold addMinutesToTime
  rw [parse_format_minutesToTime n hn]

lemma filterMap_eq_map_of {α β : Type} (l : List α) (f : α → Option β)
    (g : α → β) (h : ∀ a ∈ l, f a = some (g a)) : l.filterMap f = l.map g := by
  induction l with
  | nil => rfl
  | cons a t ih =>
    rw [List.filterMap_cons, h a (by simp), List.map_cons,
      ih (fun x hx => h x (by simp [hx]))]

lemma ite_isEmpty_filterMap_comp_eq_map {α β γ : Type} (l : List α)
    (h : α → γ) (f : γ → Option β) (g : α → β) (fb : List β)
    (hp : ∀ a ∈ l, f (h a) = some (g a)) (hne : l ≠ []) :
    (if (l.filterMap (f ∘ h)).isEmpty = true then fb else l.filterMap (f ∘ h)) =
      l.map g := by
  have heq : l.filterMap (f ∘ h) = l.map g :=
    filterMap_eq_map_of l (f ∘ h) g (fun a ha => hp a ha)
  rw [heq, if_neg (by simp [List.isEmpty_iff, List.map_eq_nil_iff, hne])]

/-- Under genuine intersection, `findTimeSlotOverlap` is exactly the list
of stepped offset slots inside the intersection. -/
lemma findTimeSlotOverlap_eq (slot1 slot2 : TimeSlot) (d : Nat) (hd : 0 < d)
    (hc1 : isCanonicalHHMM slot1.start) (hc2 : isCanonicalHHMM slot1.«end»)
    (hc3 : isCanonicalHHMM slot2.start) (hc4 : isCanonicalHHMM slot2.«end»)
    (hov : overlapLo slot1 slot2 ≤ overlapHi slot1 slot2)
    (hfit : d ≤ overlapHi slot1 slot2 - overlapLo slot1 slot2) :
    findTimeSlotOverlap slot1 slot2 d =
      (List.range ((overlapHi slot1 slot2 - overlapLo slot1 slot2 - d) /
            stepOf (overlapHi slot1 slot2 - overlapLo slot1 slot2 - d) + 1)).map
        (fun i =>
          { date := slot1.date
            start := formatTime (minutesToTime (overlapLo slot1 slot2 +
              i * stepOf (overlapHi slot1 slot2 - overlapLo slot1 slot2 - d)))
            «end» := formatTime (minutesToTime (overlapLo slot1 slot2 +
              i * stepOf (overlapHi slot1 slot2 - overlapLo slot1 slot2 - d) +
              d)) }) := by
  obtain ⟨h1, hh1, m1, hm1, e1⟩ := hc1
  obtain ⟨h2, hh2, m2, hm2, e2⟩ := hc2
  obtain ⟨h3, hh3, m3, hm3, e3⟩ := hc3
  obtain ⟨h4, hh4, m4, hm4, e4⟩ := hc4
  have hp1 : parseTime slot1.start = ⟨h1, m1, h1 * 60 + m1⟩ := by
    rw [e1, parse_format _ _ _ hh1 hm1]
  have hp2 : parseTime slot1.«end» = ⟨h2, m2, h2 * 60 + m2⟩ := by
    rw [e2, parse_format _ _ _ hh2 hm2]
  have hp3 : parseTime slot2.start = ⟨h3, m3, h3 * 60 + m3⟩ := by
    rw [e3, parse_format _ _ _ hh3 hm3]
  have hp4 : parseTime slot2.«end» = ⟨h4, m4, h4 * 60 + m4⟩ := by
    rw [e4, parse_format _ _ _ hh4 hm4]
  have hLo : overlapLo slot1 slot2 = max (h1 * 60 + m1) (h3 * 60 + m3) := by
    unfold overlapLo; rw [hp1, hp3]
  have hHi : overlapHi slot1 slot2 = min (h2 * 60 + m2) (h4 * 60 + m4) := by
    unfold overlapHi; rw [hp2, hp4]
  have hbLo : overlapLo slot1 slot2 < 1440 := by rw [hLo]; omega
  have hbHi : overlapHi slot1 slot2 < 1440 := by rw [hHi]; omega
  have hmax : maxTime (parseTime slot1.start) (parseTime slot2.start) =
      minutesToTime (overlapLo slot1 slot2) := by
    rw [hp1, hp3, hLo]
    unfold maxTime
    rcases le_or_lt (h3 * 60 + m3) (h1 * 60 + m1) with hle | hlt
    · rw [if_pos (show h3 * 60 + m3 ≤ h1 * 60 + m1 from hle),
        Nat.max_eq_left hle, minutesToTime_of_lt _ (by omega)]
      simp only [PTime.mk.injEq]
      exact ⟨by omega, by omega, trivial⟩
    · rw [if_neg (show ¬(h3 * 60 + m3 ≤ h1 * 60 + m1) from by omega),
        Nat.max_eq_right (Nat.le_of_lt hlt), minutesToTime_of_lt _ (by omega)]
      simp only [PTime.mk.injEq]
      exact ⟨by omega, by omega, trivial⟩
  have hmin : minTime (parseTime slot1.«end») (parseTime slot2.«end») =
      minutesToTime (overlapHi slot1 slot2) := by
    rw [hp2, hp4, hHi]
    unfold minTime
    rcases le_or_lt (h2 * 60 + m2) (h4 * 60 + m4) with hle | hlt
    · rw [if_pos (show h2 * 60 + m2 ≤ h4 * 60 + m4 from hle),
        Nat.min_eq_left hle, minutesToTime_of_lt _ (by omega)]
      simp only [PTime.mk.injEq]
      exact ⟨by omega, by omega, trivial⟩
    · rw [if_neg (show ¬(h2 * 60 + m2 ≤ h4 * 60 + m4) from by omega),
        Nat.min_eq_right (Nat.le_of_lt hlt), minutesToTime_of_lt _ (by omega)]
      simp only [PTime.mk.injEq]
      exact ⟨by omega, by omega, trivial⟩
  have hTMLo : (minutesToTime (overlapLo slot1 slot2)).totalMinutes =
      overlapLo slot1 slot2 := by rw [minutesToTime_of_lt _ hbLo]
  have hTMHi : (minutesToTime (overlapHi slot1 slot2)).totalMinutes =
      overlapHi slot1 slot2 := by rw [minutesToTime_of_lt _ hbHi]
  have hTD : timeDifference (minutesToTime (overlapLo slot1 slot2))
      (minutesToTime (overlapHi slot1 slot2)) =
      overlapHi slot1 slot2 - overlapLo slot1 slot2 := by
    unfold timeDifference
    rw [hTMLo, hTMHi, if_neg (by omega)]
  have hstep : min 15 (max 1 ((overlapHi slot1 slot2 - overlapLo slot1 slot2 - d) / 4)) =
      stepOf (overlapHi slot1 slot2 - overlapLo slot1 slot2 - d) := rfl
  simp only [findTimeSlotOverlap, hmax, hmin, hTD, hTMLo, hTMHi, hstep]
  rw [if_neg (by omega)]
  have hptwise : ∀ i ∈ List.range ((overlapHi slot1 slot2 - overlapLo slot1 slot2 - d) /
        stepOf (overlapHi slot1 slot2 - overlapLo slot1 slot2 - d) + 1),
      (if (parseTime (addMinutesToTime
            (formatTime (minutesToTime (overlapLo slot1 slot2 +
              i * stepOf (overlapHi slot1 slot2 - overlapLo slot1 slot2 - d)))) d)).totalMinutes ≤
          overlapHi slot1 slot2 then
        some ({ date := slot1.date
                start := formatTime (minutesToTime (overlapLo slot1 slot2 +
                  i * stepOf (overlapHi slot1 slot2 - overlapLo slot1 slot2 - d)))
                «end» := addMinutesToTime
                  (formatTime (minutesToTime (overlapLo slot1 slot2 +
                    i * stepOf (overlapHi slot1 slot2 - overlapLo slot1 slot2 - d)))) d } : TimeSlot)
      else none) =
      some { date := slot1.date
             start := formatTime (minutesToTime (overlapLo slot1 slot2 +
               i * stepOf (overlapHi slot1 slot2 - overlapLo slot1 slot2 - d)))
             «end» := formatTime (minutesToTime (overlapLo slot1 slot2 +
               i * stepOf (overlapHi slot1 slot2 - overlapLo slot1 slot2 - d) + d)) } := by
    intro i hi
    rw [List.mem_range] at hi
    have hoff : i * stepOf (overlapHi slot1 slot2 - overlapLo slot1 slot2 - d) ≤
        overlapHi slot1 slot2 - overlapLo slot1 slot2 - d := by
      have h1' : i ≤ (overlapHi slot1 slot2 - overlapLo slot1 slot2 - d) /
          stepOf (overlapHi slot1 slot2 - overlapLo slot1 slot2 - d) := by omega
      calc i * stepOf (overlapHi slot1 slot2 - overlapLo slot1 slot2 - d)
          ≤ ((overlapHi slot1 slot2 - overlapLo slot1 slot2 - d) /
              stepOf (overlapHi slot1 slot2 - overlapLo slot1 slot2 - d)) *
              stepOf (overlapHi slot1 slot2 - overlapLo slot1 slot2 - d) :=
            Nat.mul_le_mul_right _ h1'
        _ ≤ overlapHi slot1 slot2 - overlapLo slot1 slot2 - d :=
            Nat.div_mul_le_self _ _
    have hstart_lt : overlapLo slot1 slot2 +
        i * stepOf (overlapHi slot1 slot2 - overlapLo slot1 slot2 - d) < 1440 := by
      omega
    have hEq1 := addMinutes_formatTime
      (overlapLo slot1 slot2 +
        i * stepOf (overlapHi slot1 slot2 - overlapLo slot1 slot2 - d)) d hstart_lt
    have hpe : (parseTime (formatTime (minutesToTime (overlapLo slot1 slot2 +
        i * stepOf (overlapHi slot1 slot2 - overlapLo slot1 slot2 - d) +
        d)))).totalMinutes =
        overlapLo slot1 slot2 +
          i * stepOf (overlapHi slot1 slot2 - overlapLo slot1 slot2 - d) + d := by
      rw [parse_format_minutesToTime _ (by omega)]
    rw [hEq1, hpe, if_pos (by omega)]
  rw [List.filterMap_map]
  exact ite_isEmpty_filterMap_comp_eq_map _ _ _ _ _ hptwise (by simp)

end Scheduler

namespace Scheduler

lemma canonical_parse_lt (s : String) (hc : isCanonicalHHMM s) :
    (parseTime s).totalMinutes < 1440 := by
  obtain ⟨h, hh, m, hm, rfl⟩ := hc
  rw [parse_format _ _ _ hh hm]
  show h * 60 + m < 1440
  omega

/-- When the windows intersect but the intersection is shorter than the
required duration, the overlap finder returns the empty list. -/
lemma findTimeSlotOverlap_eq_nil (slot1 slot2 : TimeSlot) (d : Nat)
    (hc1 : isCanonicalHHMM slot1.start) (hc3 : isCanonicalHHMM slot2.start)
    (hov : overlapLo slot1 slot2 ≤ overlapHi slot1 slot2)
    (hnfit : overlapHi slot1 slot2 - overlapLo slot1 slot2 < d) :
    findTimeSlotOverlap slot1 slot2 d = [] := by
  obtain ⟨h1, hh1, m1, hm1, e1⟩ := hc1
  obtain ⟨h3, hh3, m3, hm3, e3⟩ := hc3
  have hp1 : parseTime slot1.start = ⟨h1, m1, h1 * 60 + m1⟩ := by
    rw [e1, parse_format _ _ _ hh1 hm1]
  have hp3 : parseTime slot2.start = ⟨h3, m3, h3 * 60 + m3⟩ := by
    rw [e3, parse_format _ _ _ hh3 hm3]
  have hLo : overlapLo slot1 slot2 = max (h1 * 60 + m1) (h3 * 60 + m3) := by
    unfold overlapLo; rw [hp1, hp3]
  have hmax : maxTime (parseTime slot1.start) (parseTime slot2.start) =
      minutesToTime (overlapLo slot1 slot2) := by
    rw [hp1, hp3, hLo]
    unfold maxTime
    rcases le_or_lt (h3 * 60 + m3) (h1 * 60 + m1) with hle | hlt
    · rw [if_pos (show h3 * 60 + m3 ≤ h1 * 60 + m1 from hle),
        Nat.max_eq_left hle, minutesToTime_of_lt _ (by omega)]
      simp only [PTime.mk.injEq]
      exact ⟨by omega, by omega, trivial⟩
    · rw [if_neg (show ¬(h3 * 60 + m3 ≤ h1 * 60 + m1) from by omega),
        Nat.max_eq_right (Nat.le_of_lt hlt), minutesToTime_of_lt _ (by omega)]
      simp only [PTime.mk.injEq]
      exact ⟨by omega, by omega, trivial⟩
  have hbLo : overlapLo slot1 slot2 < 1440 := by rw [hLo]; omega
  have hTMLo : (minutesToTime (overlapLo slot1 slot2)).totalMinutes =
      overlapLo slot1 slot2 := by rw [minutesToTime_of_lt _ hbLo]
  have hoHi : (minTime (parseTime slot1.«end») (parseTime slot2.«end»)).totalMinutes =
      overlapHi slot1 slot2 := by
    unfold overlapHi minTime
    rcases le_or_lt (parseTime slot1.«end»).totalMinutes
        (parseTime slot2.«end»).totalMinutes with hle | hlt
    · rw [if_pos hle, Nat.min_eq_left hle]
    · rw [if_neg (by omega), Nat.min_eq_right (Nat.le_of_lt hlt)]
  have hTD : timeDifference (minutesToTime (overlapLo slot1 slot2))
      (minTime (parseTime slot1.«end») (parseTime slot2.«end»)) =
      overlapHi slot1 slot2 - overlapLo slot1 slot2 := by
    unfold timeDifference
    rw [hTMLo, hoHi, if_neg (by omega)]
  simp only [findTimeSlotOverlap, hmax, hTD]
  rw [if_pos (by omega)]

/-- C2 as amended: when the two windows genuinely intersect
(`max(start1,start2) <= min(end1,end2)`), every slot returned by
`findTimeSlotOverlap` lies entirely inside the intersection, is exactly
`requiredDuration` minutes long, and the result is non-empty whenever the
intersection is at least `requiredDuration` minutes long. -/
theorem C2_findTimeSlotOverlap_within_intersection :
    ∀ (slot1 slot2 : TimeSlot) (requiredDuration : Nat),
      slot1.date = slot2.date →
      isCanonicalHHMM slot1.start → isCanonicalHHMM slot1.«end» →
      isCanonicalHHMM slot2.start → isCanonicalHHMM slot2.«end» →
      (parseTime slot1.start).totalMinutes < (parseTime slot1.«end»).totalMinutes →
      (parseTime slot2.start).totalMinutes < (parseTime slot2.«end»).totalMinutes →
      0 < requiredDuration →
      overlapLo slot1 slot2 ≤ overlapHi slot1 slot2 →
      (∀ s ∈ findTimeSlotOverlap slot1 slot2 requiredDuration,
        overlapLo slot1 slot2 ≤ (parseTime s.start).totalMinutes ∧
        (parseTime s.start).totalMinutes + requiredDuration =
          (parseTime s.«end»).totalMinutes ∧
        (parseTime s.«end»).totalMinutes ≤ overlapHi slot1 slot2) ∧
      (requiredDuration ≤ overlapHi slot1 slot2 - overlapLo slot1 slot2 →
        findTimeSlotOverlap slot1 slot2 requiredDuration ≠ []) := by
  intro slot1 slot2 d hdate hc1 hc2 hc3 hc4 hlt1 hlt2 hd hov
  have hHi1440 : overlapHi slot1 slot2 < 1440 :=
    lt_of_le_of_lt (Nat.min_le_left _ _) (canonical_parse_lt _ hc2)
  by_cases hfit : d ≤ overlapHi slot1 slot2 - overlapLo slot1 slot2
  · have hchar := findTimeSlotOverlap_eq slot1 slot2 d hd hc1 hc2 hc3 hc4 hov hfit
    constructor
    · intro s hs
      rw [hchar, List.mem_map] at hs
      obtain ⟨i, hi, rfl⟩ := hs
      rw [List.mem_range] at hi
      have hoff : i * stepOf (overlapHi slot1 slot2 - overlapLo slot1 slot2 - d) ≤
          overlapHi slot1 slot2 - overlapLo slot1 slot2 - d := by
        have h1' : i ≤ (overlapHi slot1 slot2 - overlapLo slot1 slot2 - d) /
            stepOf (overlapHi slot1 slot2 - overlapLo slot1 slot2 - d) := by omega
        calc i * stepOf (overlapHi slot1 slot2 - overlapLo slot1 slot2 - d)
            ≤ ((overlapHi slot1 slot2 - overlapLo slot1 slot2 - d) /
                stepOf (overlapHi slot1 slot2 - overlapLo slot1 slot2 - d)) *
                stepOf (overlapHi slot1 slot2 - overlapLo slot1 slot2 - d) :=
              Nat.mul_le_mul_right _ h1'
          _ ≤ overlapHi slot1 slot2 - overlapLo slot1 slot2 - d :=
              Nat.div_mul_le_self _ _
      have hs1 : (parseTime (formatTime (minutesToTime (overlapLo slot1 slot2 +
          i * stepOf (overlapHi slot1 slot2 - overlapLo slot1 slot2 - d))))).totalMinutes =
          overlapLo slot1 slot2 +
            i * stepOf (overlapHi slot1 slot2 - overlapLo slot1 slot2 - d) := by
        rw [parse_format_minutesToTime _ (by omega)]
      have hs2 : (parseTime (formatTime (minutesToTime (overlapLo slot1 slot2 +
          i * stepOf (overlapHi slot1 slot2 - overlapLo slot1 slot2 - d) +
          d)))).totalMinutes =
          overlapLo slot1 slot2 +
            i * stepOf (overlapHi slot1 slot2 - overlapLo slot1 slot2 - d) + d := by
        rw [parse_format_minutesToTime _ (by omega)]
      refine ⟨?_, ?_, ?_⟩
      · rw [hs1]; omega
      · rw [hs1, hs2]
      · rw [hs2]; omega
    · intro _
      rw [hchar]
      simp [List.map_eq_nil_iff, List.range_eq_nil]
  · have hnil := findTimeSlotOverlap_eq_nil slot1 slot2 d hc1 hc3 hov (by omega)
    constructor
    · intro s hs
      rw [hnil] at hs
      cases hs
    · intro hfit2
      omega

/-- Counterexample to C2 as stated: for the same-date windows
23:50-23:59 and 00:05-00:40 (each with start strictly before end in
minute-of-day terms, duration 30 > 0) the code wraps past midnight and
returns the slot 00:00-00:30, which does not lie inside the intersection
`[max(start1,start2), min(end1,end2)]`. -/
theorem C2_findTimeSlotOverlap_containment_counterexample :
    (⟨"2024-01-10", "23:50", "23:59"⟩ : TimeSlot).date =
      (⟨"2024-01-10", "00:05", "00:40"⟩ : TimeSlot).date ∧
    (parseTime "23:50").totalMinutes < (parseTime "23:59").totalMinutes ∧
    (parseTime "00:05").totalMinutes < (parseTime "00:40").totalMinutes ∧
    ∃ s ∈ findTimeSlotOverlap ⟨"2024-01-10", "23:50", "23:59"⟩
        ⟨"2024-01-10", "00:05", "00:40"⟩ 30,
      ¬ (overlapLo ⟨"2024-01-10", "23:50", "23:59"⟩
            ⟨"2024-01-10", "00:05", "00:40"⟩ ≤ (parseTime s.start).totalMinutes ∧
         (parseTime s.start).totalMinutes + 30 = (parseTime s.«end»).totalMinutes ∧
         (parseTime s.«end»).totalMinutes ≤
           overlapHi ⟨"2024-01-10", "23:50", "23:59"⟩
             ⟨"2024-01-10", "00:05", "00:40"⟩) := by
  decide


/-- Witness for the amended C2, at two identical 09:00-10:00 windows with
duration 30: the result list is non-empty. -/
theorem C2_findTimeSlotOverlap_within_intersection_witness :
    findTimeSlotOverlap ⟨"2024-01-10", "09:00", "10:00"⟩
      ⟨"2024-01-10", "09:00", "10:00"⟩ 30 ≠ [] :=
  (C2_findTimeSlotOverlap_within_intersection
    ⟨"2024-01-10", "09:00", "10:00"⟩ ⟨"2024-01-10", "09:00", "10:00"⟩ 30
    rfl
    ⟨9, by decide, 0, by decide, by decide⟩
    ⟨10, by decide, 0, by decide, by decide⟩
    ⟨9, by decide, 0, by decide, by decide⟩
    ⟨10, by decide, 0, by decide, by decide⟩
    (by decide) (by decide) (by decide) (by decide)).2 (by decide)

/-! ### C5: the two-identical-interviewers scenario -/

/-- C5: with two interviewers whose windows with the candidate are both
2024-01-10 09:00-10:00, duration 30 and buffer 15, the assigner places
interviewer 1 first-fit at 09:00-09:30; every generated candidate slot for
interviewer 2 starts before 09:45 (minute 585, the first start clearing
the buffer) and conflicts with the scheduled interview, so interviewer 2
is omitted from the result — the "otherwise" branch of the claim. -/
theorem C5_two_identical_interviewers_first_fit :
    findIndividualInterviews
        [⟨"ca", "cand", "s", [⟨"2024-01-10", "09:00", "10:00"⟩], "UTC", "", ""⟩]
        [⟨"ia1", "i1", "s", [⟨"2024-01-10", "09:00", "10:00"⟩], "UTC", "", ""⟩,
         ⟨"ia2", "i2", "s", [⟨"2024-01-10", "09:00", "10:00"⟩], "UTC", "", ""⟩]
        ⟨30, 15, ⟨"09:00", "17:00"⟩, [1, 2, 3, 4, 5], 5⟩ none =
      [{ date := "2024-01-10", startTime := "09:00", endTime := "09:30",
         duration := 30, score := 100, reasons := [],
         interviewer_id := some "i1",
         interviewer_name := some "Interviewer i1" }] ∧
    ∀ s ∈ findOverlappingSlots
        [⟨"ca", "cand", "s", [⟨"2024-01-10", "09:00", "10:00"⟩], "UTC", "", ""⟩]
        [⟨"ia2", "i2", "s", [⟨"2024-01-10", "09:00", "10:00"⟩], "UTC", "", ""⟩]
        ⟨30, 15, ⟨"09:00", "17:00"⟩, [1, 2, 3, 4, 5], 5⟩,
      (parseTime s.startTime).totalMinutes < 585 ∧
      pass2Conflicts
        [{ date := "2024-01-10", startTime := "09:00", endTime := "09:30",
           duration := 30, score := 100, reasons := [],
           interviewer_id := some "i1",
           interviewer_name := some "Interviewer i1" }]
        ⟨s.date, s.startTime, s.endTime⟩ 15 = true := by
  decide

/-! ### C1, C3: the two-pass assigner -/

/-- The `{date, start, end}` projection of an interview (what pass 1
pushes onto `usedCandidateTimeSlots`). -/
def slotOf (m : TimeSlotMatch) : TimeSlot :=
  ⟨m.date, m.startTime, m.endTime⟩

/-- Two interviews in assignment order are separated: on a shared date the
later one's `[start, end)` misses the earlier one's `[start, end+buffer)`. -/
def bufferSeparated (buffer : Nat) (earlier later : TimeSlotMatch) : Prop :=
  earlier.date = later.date →
    ¬((parseTime later.startTime).totalMinutes <
        (parseTime earlier.endTime).totalMinutes + buffer ∧
      (parseTime earlier.startTime).totalMinutes <
        (parseTime later.endTime).totalMinutes)

/-- The invariant both passes maintain: pairwise separation, and the
used-candidate-slot list mirrors the interview list. -/
def assignerInv (buffer : Nat) (st : List TimeSlotMatch × List TimeSlot) :
    Prop :=
  List.Pairwise (bufferSeparated buffer) st.1 ∧ st.2 = st.1.map slotOf

lemma foldl_inv {σ α : Type} (step : σ → α → σ) (P : σ → Prop)
    (hstep : ∀ st a, P st → P (step st a)) :
    ∀ (l : List α) (st : σ), P st → P (l.foldl step st) := by
  intro l
  induction l with
  | nil => intro st h; exact h
  | cons a t ih => intro st h; exact ih _ (hstep st a h)

lemma pass1Step_inv (cand ivr : List Availability) (opts : SchedulingOptions)
    (users : Option (List User)) (st : List TimeSlotMatch × List TimeSlot)
    (id : String) (h : assignerInv (bufferOr15 opts.bufferTime) st) :
    assignerInv (bufferOr15 opts.bufferTime)
      (pass1Step cand ivr opts users st id) := by
  obtain ⟨h1, h2⟩ := h
  unfold pass1Step
  rcases hfind : (findOverlappingSlots cand
      (ivr.filter (fun a => a.user_id == id)) opts).find?
      (fun slot => !hasCandidateTimeConflict ⟨slot.date, slot.startTime, slot.endTime⟩
        st.2 (bufferOr15 opts.bufferTime)) with _ | slot
  · simp only [hfind]
    exact ⟨h1, h2⟩
  · simp only [hfind]
    have hpred := List.find?_some hfind
    rw [Bool.not_eq_true'] at hpred
    rw [hasCandidateTimeConflict_eq_any, List.any_eq_false] at hpred
    constructor
    · rw [List.pairwise_append]
      refine ⟨h1, List.pairwise_singleton _ _, ?_⟩
      intro a ha b hb
      rw [List.mem_singleton] at hb
      subst hb
      intro hdate hov
      have hmem : slotOf a ∈ st.2 := by
        rw [h2]; exact List.mem_map_of_mem _ ha
      apply hpred _ hmem
      simp only [slotOf, Bool.and_eq_true, beq_iff_eq, decide_eq_true_iff]
      exact ⟨hdate, hov.1, hov.2⟩
    · rw [List.map_append, h2]
      rfl

lemma pass2Step_inv (cand ivr : List Availability) (opts : SchedulingOptions)
    (users : Option (List User)) (st : List TimeSlotMatch × List TimeSlot)
    (id : String) (h : assignerInv (bufferOr15 opts.bufferTime) st) :
    assignerInv (bufferOr15 opts.bufferTime)
      (pass2Step cand ivr opts users st id) := by
  obtain ⟨h1, h2⟩ := h
  unfold pass2Step
  rcases hfind : (findOverlappingSlots cand
      (ivr.filter (fun a => a.user_id == id)) opts).find?
      (fun slot => !pass2Conflicts st.1 ⟨slot.date, slot.startTime, slot.endTime⟩
        (bufferOr15 opts.bufferTime)) with _ | slot
  · simp only [hfind]
    exact ⟨h1, h2⟩
  · simp only [hfind]
    have hpred := List.find?_some hfind
    rw [Bool.not_eq_true'] at hpred
    rw [pass2Conflicts_eq_any, List.any_eq_false] at hpred
    constructor
    · rw [List.pairwise_append]
      refine ⟨h1, List.pairwise_singleton _ _, ?_⟩
      intro a ha b hb
      rw [List.mem_singleton] at hb
      subst hb
      intro hdate hov
      apply hpred _ ha
      simp only [Bool.and_eq_true, beq_iff_eq, decide_eq_true_iff]
      exact ⟨hdate, hov.1, hov.2⟩
    · rw [List.map_append, h2]
      rfl

/-- The assigner's output is pairwise buffer-separated. -/
lemma findIndividualInterviews_pairwise (cand ivr : List Availability)
    (opts : SchedulingOptions) (users : Option (List User)) :
    List.Pairwise (bufferSeparated (bufferOr15 opts.bufferTime))
      (findIndividualInterviews cand ivr opts users) := by
  simp only [findIndividualInterviews]
  exact (foldl_inv (pass2Step cand ivr opts users)
    (assignerInv (bufferOr15 opts.bufferTime))
    (pass2Step_inv cand ivr opts users) _ _
    (foldl_inv (pass1Step cand ivr opts users)
      (assignerInv (bufferOr15 opts.bufferTime))
      (pass1Step_inv cand ivr opts users) _ ([], [])
      ⟨List.Pairwise.nil, rfl⟩)).1

lemma pass1Step_shape (cand ivr : List Availability) (opts : SchedulingOptions)
    (users : Option (List User)) (st : List TimeSlotMatch × List TimeSlot)
    (id : String) :
    (pass1Step cand ivr opts users st id).1 = st.1 ∨
      ∃ n : TimeSlotMatch, n.interviewer_id = some id ∧
        (pass1Step cand ivr opts users st id).1 = st.1 ++ [n] := by
  unfold pass1Step
  rcases hfind : (findOverlappingSlots cand
      (ivr.filter (fun a => a.user_id == id)) opts).find?
      (fun slot => !hasCandidateTimeConflict ⟨slot.date, slot.startTime, slot.endTime⟩
        st.2 (bufferOr15 opts.bufferTime)) with _ | slot
  · left; simp only [hfind]
  · right
    exact ⟨{ slot with
             interviewer_id := some id
             interviewer_name := some (interviewerNameFor users id) }, rfl,
           by simp only [hfind]⟩

lemma pass2Step_shape (cand ivr : List Availability) (opts : SchedulingOptions)
    (users : Option (List User)) (st : List TimeSlotMatch × List TimeSlot)
    (id : String) :
    (pass2Step cand ivr opts users st id).1 = st.1 ∨
      ∃ n : TimeSlotMatch, n.interviewer_id = some id ∧
        (pass2Step cand ivr opts users st id).1 = st.1 ++ [n] := by
  unfold pass2Step
  rcases hfind : (findOverlappingSlots cand
      (ivr.filter (fun a => a.user_id == id)) opts).find?
      (fun slot => !pass2Conflicts st.1 ⟨slot.date, slot.startTime, slot.endTime⟩
        (bufferOr15 opts.bufferTime)) with _ | slot
  · left; simp only [hfind]
  · right
    exact ⟨{ slot with
             interviewer_id := some id
             interviewer_name := some (interviewerNameFor users id) }, rfl,
           by simp only [hfind]⟩

lemma foldl_step_append
    {step : List TimeSlotMatch × List TimeSlot → String →
      List TimeSlotMatch × List TimeSlot}
    (hstep : ∀ st id, (step st id).1 = st.1 ∨
      ∃ n : TimeSlotMatch, n.interviewer_id = some id ∧
        (step st id).1 = st.1 ++ [n]) :
    ∀ (ids : List String) (st : List TimeSlotMatch × List TimeSlot),
      ∃ tail, (ids.foldl step st).1 = st.1 ++ tail ∧
        (tail.map (fun m => m.interviewer_id)).Sublist (ids.map some) := by
  intro ids
  induction ids with
  | nil => intro st; exact ⟨[], by simp, by simp⟩
  | cons id rest ih =>
    intro st
    rcases hstep st id with heq | ⟨n, hn, heq⟩
    · obtain ⟨tail, h1, h2⟩ := ih (step st id)
      refine ⟨tail, ?_, ?_⟩
      · rw [List.foldl_cons, h1, heq]
      · exact h2.trans (List.sublist_cons_self _ _)
    · obtain ⟨tail, h1, h2⟩ := ih (step st id)
      refine ⟨n :: tail, ?_, ?_⟩
      · rw [List.foldl_cons, h1, heq, List.append_assoc]
        rfl
      · rw [List.map_cons, List.map_cons, hn]
        exact h2.cons₂ _

lemma dedupFirst_nodup : ∀ (l : List Availability) (seen : List String),
    (dedupFirst seen l).Nodup ∧ ∀ x ∈ dedupFirst seen l, x ∉ seen := by
  intro l
  induction l with
  | nil => intro seen; exact ⟨List.nodup_nil, by simp [dedupFirst]⟩
  | cons a rest ih =>
    intro seen
    by_cases h : seen.contains a.user_id
    · simp only [dedupFirst]
      rw [if_pos h]
      exact ih seen
    · simp only [dedupFirst]
      rw [if_neg h]
      have hseen : a.user_id ∉ seen := by
        intro hmem
        exact h (List.elem_eq_true_of_mem hmem)
      constructor
      · rw [List.nodup_cons]
        refine ⟨fun hmem => ?_, (ih (a.user_id :: seen)).1⟩
        exact ((ih (a.user_id :: seen)).2 _ hmem) (List.mem_cons_self _ _)
      · intro x hx
        rcases List.mem_cons.mp hx with rfl | hx'
        · exact hseen
        · intro hxseen
          exact ((ih (a.user_id :: seen)).2 _ hx') (List.mem_cons_of_mem _ hxseen)

lemma interviewerIdsOf_nodup (ivr : List Availability) :
    (interviewerIdsOf ivr).Nodup :=
  (dedupFirst_nodup ivr []).1

/-- C1: for every ScheduleResponse that `findOptimalSchedule` reports as
successful, the assigned interviews are pairwise buffer-separated: for any
two interviews on one date, the later-accepted one's `[start, end)` does
not intersect the earlier one's `[start, end + bufferTime)` (with the
engine's effective buffer `options.bufferTime || 15`). -/
theorem C1_no_two_interviews_overlap_with_buffer :
    ∀ (conv : String → String → Except String String)
      (fmtDate : String → String) (today : String)
      (request : ScheduleRequest) (options : PartialOptions),
      (findOptimalSchedule conv fmtDate today request options).success = true →
      List.Pairwise
        (bufferSeparated
          (bufferOr15 (mergeOptions options request.interview_duration).bufferTime))
        (findIndividualInterviews request.candidate_availability
          request.interviewer_availability
          (mergeOptions options request.interview_duration) request.users) := by
  intro conv fmtDate today request options _hsucc
  exact findIndividualInterviews_pairwise _ _ _ _

/-- Witness for C1 at the two-identical-interviewers request (success holds
and the separation property is obtained from the theorem). -/
theorem C1_no_two_interviews_overlap_with_buffer_witness :
    List.Pairwise
      (bufferSeparated
        (bufferOr15 (mergeOptions ⟨none, some 15, none, none, none⟩ 30).bufferTime))
      (findIndividualInterviews
        [⟨"ca", "cand", "s", [⟨"2024-01-10", "09:00", "10:00"⟩], "UTC", "", ""⟩]
        [⟨"ia1", "i1", "s", [⟨"2024-01-10", "09:00", "10:00"⟩], "UTC", "", ""⟩,
         ⟨"ia2", "i2", "s", [⟨"2024-01-10", "09:00", "10:00"⟩], "UTC", "", ""⟩]
        (mergeOptions ⟨none, some 15, none, none, none⟩ 30) none) :=
  C1_no_two_interviews_overlap_with_buffer
    (fun _ _ => Except.ok "T") (fun _ => "D") "2024-01-01"
    ⟨"sched", "UTC", 30,
      [⟨"ca", "cand", "s", [⟨"2024-01-10", "09:00", "10:00"⟩], "UTC", "", ""⟩],
      [⟨"ia1", "i1", "s", [⟨"2024-01-10", "09:00", "10:00"⟩], "UTC", "", ""⟩,
       ⟨"ia2", "i2", "s", [⟨"2024-01-10", "09:00", "10:00"⟩], "UTC", "", ""⟩],
      none⟩
    ⟨none, some 15, none, none, none⟩ (by decide)

/-- The state after pass 1 of `findIndividualInterviews`: the pass-1
successes in acceptance order, with the candidate slots they occupy.
Definitionally the first stage of `findIndividualInterviews`. -/
def pass1State (cand ivr : List Availability) (opts : SchedulingOptions)
    (users : Option (List User)) : List TimeSlotMatch × List TimeSlot :=
  (interviewerIdsOf ivr).foldl (pass1Step cand ivr opts users) ([], [])

/-- C3: the assigner's output is exactly the actual pass-1 successes
(`pass1State`) followed by the pass-2 (rescue) successes — rescues are
appended after all pass-1 successes, never interleaved back into their
encounter positions; within each pass the interviews follow
interviewer-encounter order (their id sequence is a subsequence of the
encounter-ordered id list, pass 2 drawing from the still-unscheduled ids
in that same order), and every interviewer appears at most once. -/
theorem C3_encounter_order_and_uniqueness (cand ivr : List Availability)
    (opts : SchedulingOptions) (users : Option (List User)) :
    ∃ rescued : List TimeSlotMatch,
      findIndividualInterviews cand ivr opts users =
        (pass1State cand ivr opts users).1 ++ rescued ∧
      ((pass1State cand ivr opts users).1.map
        (fun m => m.interviewer_id)).Sublist
        ((interviewerIdsOf ivr).map some) ∧
      (rescued.map (fun m => m.interviewer_id)).Sublist
        (((interviewerIdsOf ivr).filter (fun id =>
          !(((pass1State cand ivr opts users).1.map
            (fun m => m.interviewer_id)).contains (some id)))).map some) ∧
      ((findIndividualInterviews cand ivr opts users).map
        (fun m => m.interviewer_id)).Nodup := by
  obtain ⟨l1, h11, h12⟩ := foldl_step_append (pass1Step_shape cand ivr opts users)
    (interviewerIdsOf ivr) ([], [])
  rw [List.nil_append] at h11
  obtain ⟨l2, h21, h22⟩ := foldl_step_append (pass2Step_shape cand ivr opts users)
    ((interviewerIdsOf ivr).filter (fun id =>
      !((((interviewerIdsOf ivr).foldl (pass1Step cand ivr opts users)
          ([], [])).1.map (fun i => i.interviewer_id)).contains (some id))))
    ((interviewerIdsOf ivr).foldl (pass1Step cand ivr opts users) ([], []))
  have hids_nodup : ((interviewerIdsOf ivr).map some).Nodup :=
    (interviewerIdsOf_nodup ivr).map (Option.some_injective _)
  have hsplit : findIndividualInterviews cand ivr opts users =
      (pass1State cand ivr opts users).1 ++ l2 := by
    simp only [findIndividualInterviews, pass1State]
    exact h21
  refine ⟨l2, hsplit, ?_, ?_, ?_⟩
  · show ((((interviewerIdsOf ivr).foldl (pass1Step cand ivr opts users)
        ([], [])).1).map (fun m => m.interviewer_id)).Sublist
      ((interviewerIdsOf ivr).map some)
    rw [h11]
    exact h12
  · exact h22
  · rw [hsplit]
    rw [List.map_append, List.nodup_append]
    have hnd1 : (((interviewerIdsOf ivr).foldl (pass1Step cand ivr opts users)
        ([], [])).1.map (fun m => m.interviewer_id)).Nodup := by
      rw [h11]
      exact h12.nodup hids_nodup
    have hnd2 : (l2.map (fun m => m.interviewer_id)).Nodup := by
      refine h22.nodup ?_
      exact (((interviewerIdsOf_nodup ivr).filter _).map (Option.some_injective _))
    refine ⟨hnd1, hnd2, ?_⟩
    intro x hx1 hx2
    have hx1' : x ∈ (((interviewerIdsOf ivr).foldl (pass1Step cand ivr opts users)
        ([], [])).1.map (fun m => m.interviewer_id)) := hx1
    have hx2' := h22.subset hx2
    rw [List.mem_map] at hx2'
    obtain ⟨id, hid_mem, rfl⟩ := hx2'
    rw [List.mem_filter] at hid_mem
    have hnotin := hid_mem.2
    rw [Bool.not_eq_true'] at hnotin
    have hcontains : (((interviewerIdsOf ivr).foldl (pass1Step cand ivr opts users)
        ([], [])).1.map (fun m => m.interviewer_id)).contains (some id) = true :=
      List.elem_eq_true_of_mem hx1'
    rw [hnotin] at hcontains
    cases hcontains

/-! ### C6, C7: error handling and determinism of the entry point -/

lemma foldl_id_of_step_id {σ α : Type} (step : σ → α → σ)
    (h : ∀ st a, step st a = st) : ∀ (l : List α) (st : σ), l.foldl step st = st := by
  intro l
  induction l with
  | nil => intro st; rfl
  | cons a t ih => intro st; rw [List.foldl_cons, h st a]; exact ih _

/-- When no interviewer has any feasible overlap, the assigner returns no
interviews. -/
lemma findIndividualInterviews_eq_nil (cand ivr : List Availability)
    (opts : SchedulingOptions) (users : Option (List User))
    (h : ∀ id, findOverlappingSlots cand
      (ivr.filter (fun a => a.user_id == id)) opts = []) :
    findIndividualInterviews cand ivr opts users = [] := by
  have h1 : ∀ st id, pass1Step cand ivr opts users st id = st := by
    intro st id
    simp only [pass1Step, h id]
    rfl
  have h2 : ∀ st id, pass2Step cand ivr opts users st id = st := by
    intro st id
    simp only [pass2Step, h id]
    rfl
  simp only [findIndividualInterviews]
  rw [foldl_id_of_step_id _ h1, foldl_id_of_step_id _ h2]

lemma except_bind_ok {α β : Type} (x : Except String α)
    (f : α → Except String β) (r : β) (h : x >>= f = Except.ok r) :
    ∃ a, x = Except.ok a ∧ f a = Except.ok r := by
  cases x with
  | error e => cases h
  | ok a => exact ⟨a, rfl, h⟩

/-- On the success path the body reports `success := true`. -/
lemma findOptimalScheduleBody_success (conv : String → String → Except String String)
    (fmtDate : String → String) (today : String) (request : ScheduleRequest)
    (options : PartialOptions) (r : ScheduleResponse)
    (h : findOptimalScheduleBody conv fmtDate today request options = Except.ok r) :
    r = noOverlapResponse ∨ r.success = true := by
  simp only [findOptimalScheduleBody] at h
  rcases hI : findIndividualInterviews request.candidate_availability
      request.interviewer_availability
      (mergeOptions options request.interview_duration) request.users
    with _ | ⟨primary, rest⟩
  · rw [hI] at h
    left
    cases h
    rfl
  · rw [hI] at h
    right
    obtain ⟨a1, _, h⟩ := except_bind_ok _ _ _ h
    obtain ⟨a2, _, h⟩ := except_bind_ok _ _ _ h
    obtain ⟨a3, _, h⟩ := except_bind_ok _ _ _ h
    obtain ⟨a4, _, h⟩ := except_bind_ok _ _ _ h
    cases h
    rfl

/-- C6: `findOptimalSchedule` never throws to its caller: it is a total
function; when no interviewer has any feasible overlap with the candidate
it returns the fixed no-overlap `success:false` response (a normal
outcome), and every `success:false` response carries one of the two fixed
messages — the no-overlap message or the generic message produced by the
`catch` block from an unexpected internal error. -/
theorem C6_findOptimalSchedule_failure_modes :
    ∀ (conv : String → String → Except String String)
      (fmtDate : String → String) (today : String)
      (request : ScheduleRequest) (options : PartialOptions),
      ((∀ id, findOverlappingSlots request.candidate_availability
          (request.interviewer_availability.filter (fun a => a.user_id == id))
          (mergeOptions options request.interview_duration) = []) →
        findOptimalSchedule conv fmtDate today request options =
          noOverlapResponse) ∧
      ((findOptimalSchedule conv fmtDate today request options).success = false →
        (findOptimalSchedule conv fmtDate today request options).message =
          noOverlapMessage ∨
        (findOptimalSchedule conv fmtDate today request options).message =
          genericFailureMessage) ∧
      (∀ e, findOptimalScheduleBody conv fmtDate today request options =
          Except.error e →
        findOptimalSchedule conv fmtDate today request options =
          caughtFailureResponse) := by
  intro conv fmtDate today request options
  refine ⟨?_, ?_, ?_⟩
  · intro h
    have hnil := findIndividualInterviews_eq_nil
      request.candidate_availability request.interviewer_availability
      (mergeOptions options request.interview_duration) request.users h
    simp only [findOptimalSchedule, findOptimalScheduleBody, hnil]
  · intro hfail
    unfold findOptimalSchedule at hfail ⊢
    rcases hbody : findOptimalScheduleBody conv fmtDate today request options
      with e | r
    · right
      rfl
    · rw [hbody] at hfail
      rcases findOptimalScheduleBody_success conv fmtDate today request options
        _ hbody with hr | hr
      · left
        rw [hr]
        rfl
      · exfalso
        have hfalse : r.success = false := hfail
        rw [hr] at hfalse
        cases hfalse
  · intro e he
    unfold findOptimalSchedule
    rw [he]

/-- Witness for C6 at a request with no interviewers: the no-overlap
response is produced, with its fixed message. -/
theorem C6_findOptimalSchedule_failure_modes_witness :
    findOptimalSchedule (fun _ _ => Except.ok "T") (fun _ => "D") "2024-01-01"
        ⟨"sched", "UTC", 30, [], [], none⟩ ⟨none, none, none, none, none⟩ =
      noOverlapResponse ∧
    ((findOptimalSchedule (fun _ _ => Except.ok "T") (fun _ => "D") "2024-01-01"
        ⟨"sched", "UTC", 30, [], [], none⟩
        ⟨none, none, none, none, none⟩).message = noOverlapMessage ∨
     (findOptimalSchedule (fun _ _ => Except.ok "T") (fun _ => "D") "2024-01-01"
        ⟨"sched", "UTC", 30, [], [], none⟩
        ⟨none, none, none, none, none⟩).message = genericFailureMessage) :=
  ⟨(C6_findOptimalSchedule_failure_modes (fun _ _ => Except.ok "T")
      (fun _ => "D") "2024-01-01" ⟨"sched", "UTC", 30, [], [], none⟩
      ⟨none, none, none, none, none⟩).1 (fun _ => rfl),
   (C6_findOptimalSchedule_failure_modes (fun _ _ => Except.ok "T")
      (fun _ => "D") "2024-01-01" ⟨"sched", "UTC", 30, [], [], none⟩
      ⟨none, none, none, none, none⟩).2.1 rfl⟩

lemma findOverlappingSlots_date (cand ivr : List Availability)
    (opts : SchedulingOptions) :
    ∀ m ∈ findOverlappingSlots cand ivr opts,
      ∃ a ∈ ivr, ∃ s ∈ a.time_slots, m.date = s.date := by
  intro m hm
  simp only [findOverlappingSlots] at hm
  rw [List.mem_flatMap] at hm
  obtain ⟨a, ha, hm⟩ := hm
  rw [List.mem_flatMap] at hm
  obtain ⟨islot, hislot, hm⟩ := hm
  rw [List.mem_flatMap] at hm
  obtain ⟨cslot, _, hm⟩ := hm
  rw [List.mem_map] at hm
  obtain ⟨slot, _, rfl⟩ := hm
  exact ⟨a, ha, islot, hislot, rfl⟩

/-- Invariant: every assigned interview's date is one of the interviewer
slot dates. -/
def datesFromIvr (ivr : List Availability)
    (st : List TimeSlotMatch × List TimeSlot) : Prop :=
  ∀ m ∈ st.1, ∃ a ∈ ivr, ∃ s ∈ a.time_slots, m.date = s.date

lemma pass1Step_dates (cand ivr : List Availability) (opts : SchedulingOptions)
    (users : Option (List User)) (st : List TimeSlotMatch × List TimeSlot)
    (id : String) (h : datesFromIvr ivr st) :
    datesFromIvr ivr (pass1Step cand ivr opts users st id) := by
  unfold pass1Step
  rcases hfind : (findOverlappingSlots cand
      (ivr.filter (fun a => a.user_id == id)) opts).find?
      (fun slot => !hasCandidateTimeConflict ⟨slot.date, slot.startTime, slot.endTime⟩
        st.2 (bufferOr15 opts.bufferTime)) with _ | slot
  · simp only [hfind]
    exact h
  · simp only [hfind]
    intro m hm
    rw [List.mem_append] at hm
    rcases hm with hm | hm
    · exact h m hm
    · rw [List.mem_singleton] at hm
      subst hm
      have hslot := List.mem_of_find?_eq_some hfind
      obtain ⟨a, ha, s, hs, hd⟩ := findOverlappingSlots_date _ _ _ _ hslot
      exact ⟨a, List.mem_of_mem_filter ha, s, hs, hd⟩

lemma pass2Step_dates (cand ivr : List Availability) (opts : SchedulingOptions)
    (users : Option (List User)) (st : List TimeSlotMatch × List TimeSlot)
    (id : String) (h : datesFromIvr ivr st) :
    datesFromIvr ivr (pass2Step cand ivr opts users st id) := by
  unfold pass2Step
  rcases hfind : (findOverlappingSlots cand
      (ivr.filter (fun a => a.user_id == id)) opts).find?
      (fun slot => !pass2Conflicts st.1 ⟨slot.date, slot.startTime, slot.endTime⟩
        (bufferOr15 opts.bufferTime)) with _ | slot
  · simp only [hfind]
    exact h
  · simp only [hfind]
    intro m hm
    rw [List.mem_append] at hm
    rcases hm with hm | hm
    · exact h m hm
    · rw [List.mem_singleton] at hm
      subst hm
      have hslot := List.mem_of_find?_eq_some hfind
      obtain ⟨a, ha, s, hs, hd⟩ := findOverlappingSlots_date _ _ _ _ hslot
      exact ⟨a, List.mem_of_mem_filter ha, s, hs, hd⟩

lemma findIndividualInterviews_dates (cand ivr : List Availability)
    (opts : SchedulingOptions) (users : Option (List User)) :
    ∀ m ∈ findIndividualInterviews cand ivr opts users,
      ∃ a ∈ ivr, ∃ s ∈ a.time_slots, m.date = s.date := by
  simp only [findIndividualInterviews]
  exact foldl_inv (pass2Step cand ivr opts users) (datesFromIvr ivr)
    (pass2Step_dates cand ivr opts users) _ _
    (foldl_inv (pass1Step cand ivr opts users) (datesFromIvr ivr)
      (pass1Step_dates cand ivr opts users) _ ([], [])
      (fun m hm => absurd hm (List.not_mem_nil m)))

lemma createScheduledTime_today_irrel
    (conv : String → String → Except String String) (t1 t2 : String)
    (slot : TimeSlotMatch) (tz : String) (h : slot.date ≠ "") :
    createScheduledTime conv t1 slot tz = createScheduledTime conv t2 slot tz := by
  unfold createScheduledTime
  have hbeq : (slot.date == "") = false := by
    rw [beq_eq_false_iff_ne]
    exact h
  rw [hbeq]
  rfl

lemma mapM_congr_except {α β : Type} (l : List α) (f g : α → Except String β)
    (h : ∀ a ∈ l, f a = g a) : l.mapM f = l.mapM g := by
  induction l with
  | nil => rfl
  | cons a t ih =>
    rw [List.mapM_cons, List.mapM_cons, h a (by simp),
      ih (fun x hx => h x (by simp [hx]))]

/-- C7: `findOptimalSchedule` is deterministic — it is a pure function of
its inputs (the embedding takes the external timezone converter, date
formatter and clock as explicit arguments), and when every interviewer
slot carries a date the output does not depend on the clock at all: the
documented missing-date fallback is the only clock dependence. -/
theorem C7_findOptimalSchedule_deterministic :
    ∀ (conv : String → String → Except String String)
      (fmtDate : String → String) (request : ScheduleRequest)
      (options : PartialOptions) (today1 today2 : String),
      (∀ a ∈ request.interviewer_availability, ∀ s ∈ a.time_slots,
        s.date ≠ "") →
      findOptimalSchedule conv fmtDate today1 request options =
        findOptimalSchedule conv fmtDate today2 request options := by
  intro conv fmtDate request options t1 t2 h
  have hdates : ∀ m ∈ findIndividualInterviews request.candidate_availability
      request.interviewer_availability
      (mergeOptions options request.interview_duration) request.users,
      m.date ≠ "" := by
    intro m hm
    obtain ⟨a, ha, s, hs, hd⟩ :=
      findIndividualInterviews_dates _ _ _ _ m hm
    rw [hd]
    exact h a ha s hs
  have hbody : findOptimalScheduleBody conv fmtDate t1 request options =
      findOptimalScheduleBody conv fmtDate t2 request options := by
    simp only [findOptimalScheduleBody]
    rcases hI : findIndividualInterviews request.candidate_availability
        request.interviewer_availability
        (mergeOptions options request.interview_duration) request.users
      with _ | ⟨primary, rest⟩
    · rfl
    · have hmem : ∀ a ∈ primary :: rest,
          a ∈ findIndividualInterviews request.candidate_availability
            request.interviewer_availability
            (mergeOptions options request.interview_duration) request.users := by
        intro a ha
        rw [hI]
        exact ha
      have e1 : createScheduledTime conv t1 primary request.timezone =
          createScheduledTime conv t2 primary request.timezone :=
        createScheduledTime_today_irrel conv t1 t2 primary request.timezone
          (hdates _ (hmem _ (List.mem_cons_self _ _)))
      have e2 : (List.take ((mergeOptions options request.interview_duration).maxSuggestions - 1)
            (List.drop 1 (primary :: rest))).mapM
            (fun slot => createScheduledTime conv t1 slot request.timezone) =
          (List.take ((mergeOptions options request.interview_duration).maxSuggestions - 1)
            (List.drop 1 (primary :: rest))).mapM
            (fun slot => createScheduledTime conv t2 slot request.timezone) := by
        refine mapM_congr_except _ _ _ (fun a ha => ?_)
        have ha' : a ∈ primary :: rest :=
          List.drop_subset 1 _ (List.take_subset _ _ ha)
        exact createScheduledTime_today_irrel conv t1 t2 a request.timezone
          (hdates _ (hmem _ ha'))
      have e3 : (primary :: rest).mapM (fun slot => do
            let st ← createScheduledTime conv t1 slot request.timezone
            Except.ok
              ({ date := slot.date, start_time := slot.startTime
                 end_time := slot.endTime, score := slot.score
                 reasons := slot.reasons, scheduled_time := st
                 interviewer_id := slot.interviewer_id
                 interviewer_name := slot.interviewer_name } : AllSlotEntry)) =
          (primary :: rest).mapM (fun slot => do
            let st ← createScheduledTime conv t2 slot request.timezone
            Except.ok
              ({ date := slot.date, start_time := slot.startTime
                 end_time := slot.endTime, score := slot.score
                 reasons := slot.reasons, scheduled_time := st
                 interviewer_id := slot.interviewer_id
                 interviewer_name := slot.interviewer_name } : AllSlotEntry)) := by
        refine mapM_congr_except _ _ _ (fun a ha => ?_)
        rw [createScheduledTime_today_irrel conv t1 t2 a request.timezone
          (hdates _ (hmem _ ha))]
      have e4 : (primary :: rest).mapM (fun interview => do
            let st ← createScheduledTime conv t1 interview request.timezone
            Except.ok
              ({ interviewer_id := jsOrString interview.interviewer_id "unknown"
                 interviewer_name :=
                   jsOrString interview.interviewer_name "Unknown Interviewer"
                 date := interview.date, start_time := interview.startTime
                 end_time := interview.endTime, score := interview.score
                 reasons := interview.reasons
                 scheduled_time := st } : IndividualInterview)) =
          (primary :: rest).mapM (fun interview => do
            let st ← createScheduledTime conv t2 interview request.timezone
            Except.ok
              ({ interviewer_id := jsOrString interview.interviewer_id "unknown"
                 interviewer_name :=
                   jsOrString interview.interviewer_name "Unknown Interviewer"
                 date := interview.date, start_time := interview.startTime
                 end_time := interview.endTime, score := interview.score
                 reasons := interview.reasons
                 scheduled_time := st } : IndividualInterview)) := by
        refine mapM_congr_except _ _ _ (fun a ha => ?_)
        rw [createScheduledTime_today_irrel conv t1 t2 a request.timezone
          (hdates _ (hmem _ ha))]
      simp only [e1, e2, e3, e4]
  unfold findOptimalSchedule
  rw [hbody]

/-- Witness for C7: with a dated request the responses for two different
"today" values coincide. -/
theorem C7_findOptimalSchedule_deterministic_witness :
    findOptimalSchedule (fun _ _ => Except.ok "T") (fun _ => "D") "2024-01-01"
        ⟨"sched", "UTC", 30,
          [⟨"ca", "cand", "s", [⟨"2024-01-10", "09:00", "10:00"⟩], "UTC", "", ""⟩],
          [⟨"ia1", "i1", "s", [⟨"2024-01-10", "09:00", "10:00"⟩], "UTC", "", ""⟩],
          none⟩ ⟨none, some 15, none, none, none⟩ =
      findOptimalSchedule (fun _ _ => Except.ok "T") (fun _ => "D") "2030-12-31"
        ⟨"sched", "UTC", 30,
          [⟨"ca", "cand", "s", [⟨"2024-01-10", "09:00", "10:00"⟩], "UTC", "", ""⟩],
          [⟨"ia1", "i1", "s", [⟨"2024-01-10", "09:00", "10:00"⟩], "UTC", "", ""⟩],
          none⟩ ⟨none, some 15, none, none, none⟩ :=
  C7_findOptimalSchedule_deterministic (fun _ _ => Except.ok "T") (fun _ => "D")
    ⟨"sched", "UTC", 30,
      [⟨"ca", "cand", "s", [⟨"2024-01-10", "09:00", "10:00"⟩], "UTC", "", ""⟩],
      [⟨"ia1", "i1", "s", [⟨"2024-01-10", "09:00", "10:00"⟩], "UTC", "", ""⟩],
      none⟩ ⟨none, some 15, none, none, none⟩ "2024-01-01" "2030-12-31"
    (by decide)

end Scheduler
